import Mathlib

/-!
Verification development for the mulesoft-consulting/ansible reconciliation
modules.  Each namespace shallowly embeds the decision logic of one Ansible
module (or shared module_utils function) of the repository: the per-run
decision functions are translated directly from the Python source, the remote
backing store is modelled as explicit data, and a module run is a pure
function from declared parameters and the observed store to the list of
mutating calls issued (in order) together with the module outcome
(failure, or a normal exit carrying the changed flag).
-/

namespace MulesoftAnsible

/-- Outcome of one Ansible module run: either a fail_json termination with a
message, or a normal exit_json termination carrying the changed flag and the
value-bearing part of the result dictionary. -/
inductive Outcome (α : Type) where
  | fail (msg : String)
  | exit (changed : Bool) (value : α)
deriving DecidableEq, Repr

/-- The changed flag an outcome reports: some flag for a normal exit, none
for a failure (fail_json reports no changed field). -/
def changedFlag {α : Type} : Outcome α → Option Bool
  | .fail _ => none
  | .exit c _ => some c

namespace ApApiMgrPolicy

/-!
Embedding of lib/ansible/modules/cloud/mulesoft/ap_api_mgr_policy.py.
The backing store is the list of policies applied to the managed API, as the
anypoint-cli list subcommand reports them: asset id, numeric policy id,
asset version and status.
-/

/-- One entry of the applied-policies list returned by the CLI list call. -/
structure PolicyItem where
  assetId : String
  pid : String
  assetVersion : String
  status : String
deriving DecidableEq, Repr

/-- The remote backing store: all policies currently applied to the API. -/
abbrev PolicyStore := List PolicyItem

/-- The state choices of the module argument spec. -/
inductive PolState where
  | present | enabled | disabled | absent
deriving DecidableEq, Repr

/-- The module parameters that the decision logic inspects. -/
structure PolicyParams where
  name : String
  state : PolState
  policy_version : String
deriving DecidableEq, Repr

/-- The context dictionary built by do_no_action. -/
structure PolicyContext where
  do_nothing : Bool
  policy_id : Option String
  policy_asset_version : Option String
  policy_enabled : Bool
deriving DecidableEq, Repr

/-- The initial context dictionary of do_no_action. -/
def initContext : PolicyContext :=
  { do_nothing := false, policy_id := none, policy_asset_version := none,
    policy_enabled := false }

/-- One step of the do_no_action loop over the applied-policies list: an item
whose asset id equals the declared name overwrites the context fields. -/
def scanStep (name : String) (acc : PolicyContext) (item : PolicyItem) :
    PolicyContext :=
  if item.assetId == name then
    { acc with
      policy_id := some item.pid,
      policy_asset_version := some item.assetVersion,
      policy_enabled := item.status == "Enabled" }
  else acc

/-- The for-loop of do_no_action over the applied-policies list: every item
whose asset id equals the declared name overwrites the context fields, so the
last matching item wins (the source loop has no break). -/
def scanApplied (name : String) (store : PolicyStore) : PolicyContext :=
  store.foldl (scanStep name) initContext

/-- One step of locating the last applied policy whose asset id equals the
declared name. -/
def lastStep (name : String) (acc : Option PolicyItem) (item : PolicyItem) :
    Option PolicyItem :=
  if item.assetId == name then some item else acc

/-- The last applied policy whose asset id equals the declared name, the one
whose fields survive the do_no_action loop. -/
def lastMatch (name : String) (store : PolicyStore) : Option PolicyItem :=
  store.foldl (lastStep name) none

/-- The context that the do_no_action loop produces from the surviving
matching item, if any. -/
def ctxOf : Option PolicyItem → PolicyContext
  | none => initContext
  | some it =>
      { do_nothing := false, policy_id := some it.pid,
        policy_asset_version := some it.assetVersion,
        policy_enabled := it.status == "Enabled" }

/-- do_no_action of ap_api_mgr_policy: scan the applied policies, then decide
do_nothing per declared state; enabled and disabled fail when no policy with
the declared name is applied.  Note that for state present do_nothing is
never set. -/
def do_no_action (p : PolicyParams) (store : PolicyStore) :
    Except String PolicyContext :=
  let base := scanApplied p.name store
  match p.state with
  | .enabled =>
      if base.policy_id.isNone then
        Except.error "enabled state requires an existing policy applied"
      else Except.ok { base with do_nothing := base.policy_enabled == true }
  | .disabled =>
      if base.policy_id.isNone then
        Except.error "disabled state requires an existing policy applied"
      else Except.ok { base with do_nothing := base.policy_enabled == false }
  | .absent => Except.ok { base with do_nothing := base.policy_id.isNone }
  | .present => Except.ok base

/-- One mutating anypoint-cli call of the policy module.  The apply call
carries the policy id that the CLI output reports for the new policy. -/
inductive PolicyCall where
  | applyNew (name version newId : String)
  | edit (pid : String)
  | enable (pid : String)
  | disable (pid : String)
  | remove (pid : String)
deriving DecidableEq, Repr

/-- apply_edit_policy_on_api: when a policy with the declared name is applied
but its asset version differs from the declared one, remove it first and
clear the context; afterwards edit the still-applied policy, or apply a new
one (whose id, parsed from the CLI output, is freshId).  Returns the calls in
issue order and the final context policy id. -/
def apply_edit_policy_on_api (p : PolicyParams) (ctx : PolicyContext)
    (freshId : String) : List PolicyCall × Option String :=
  let (removeCalls, ctx1) :=
    match ctx.policy_id with
    | some pid =>
        if ctx.policy_asset_version ≠ some p.policy_version then
          ([PolicyCall.remove pid],
           { ctx with policy_id := none, policy_asset_version := none,
                      policy_enabled := false })
        else ([], ctx)
    | none => ([], ctx)
  match ctx1.policy_id with
  | some pid => (removeCalls ++ [PolicyCall.edit pid], some pid)
  | none =>
      (removeCalls ++ [PolicyCall.applyNew p.name p.policy_version freshId],
       some freshId)

/-- run_module of ap_api_mgr_policy: do_no_action first (its CLI read may
fail, and enabled and disabled fail without an applied policy), exit
unchanged when do_nothing, exit unchanged in check mode, otherwise dispatch
on the declared state and exit with changed true.  The exit value is the
policy_id field of the result dictionary.  The local file reads of the
options branch are plumbing and assumed to succeed. -/
def run_module (p : PolicyParams) (checkMode : Bool) (freshId : String)
    (store : PolicyStore) : List PolicyCall × Outcome (Option String) :=
  match do_no_action p store with
  | .error m => ([], Outcome.fail m)
  | .ok ctx =>
      if ctx.do_nothing then ([], Outcome.exit false none)
      else if checkMode then ([], Outcome.exit false none)
      else
        match p.state with
        | .present =>
            let (calls, finalId) := apply_edit_policy_on_api p ctx freshId
            (calls, Outcome.exit true finalId)
        | .enabled =>
            ([PolicyCall.enable (ctx.policy_id.getD "")],
             Outcome.exit true ctx.policy_id)
        | .disabled =>
            ([PolicyCall.disable (ctx.policy_id.getD "")],
             Outcome.exit true ctx.policy_id)
        | .absent =>
            ([PolicyCall.remove (ctx.policy_id.getD "")],
             Outcome.exit true ctx.policy_id)

/-- Effect of one mutating CLI call on the remote applied-policies store,
modelling the documented behavior of the API Manager backend: apply adds the
policy under the reported new id, edit changes only its configuration (not
listed), enable and disable flip the status of the policy with that id, and
remove deletes it. -/
def policyStep (store : PolicyStore) : PolicyCall → PolicyStore
  | .applyNew n v newId => store ++ [⟨n, newId, v, "Enabled"⟩]
  | .edit _ => store
  | .enable pid =>
      store.map (fun it => if it.pid == pid then { it with status := "Enabled" } else it)
  | .disable pid =>
      store.map (fun it => if it.pid == pid then { it with status := "Disabled" } else it)
  | .remove pid => store.filter (fun it => it.pid != pid)

/-- Effect of a whole call trace on the remote store. -/
def policyRun (calls : List PolicyCall) (store : PolicyStore) : PolicyStore :=
  calls.foldl policyStep store

end ApApiMgrPolicy

namespace ApMqDestination

/-!
Embedding of lib/ansible/modules/cloud/anypoint/ap_mq_destination.py.
The backing store is the destination list of the environment as returned by
the MQ admin API with minimal inclusion, except that each destination also
carries its remote attributes (which the module never reads): this lets the
embedding express attribute drift between declared and observed state.
-/

/-- Destination kind, mirroring the type suboption choices. -/
inductive MqType where
  | queue | exchange
deriving DecidableEq, Repr

/-- One destination of the environment.  The decision logic only inspects
dtype and destId (queueId or exchangeId); encrypted and defaultTtl stand for
the remote attributes that exist on the backend but are never fetched by the
module. -/
structure MqDest where
  dtype : MqType
  destId : String
  encrypted : Bool
  defaultTtl : Nat
deriving DecidableEq, Repr

/-- The remote backing store of the module. -/
abbrev MqStore := List MqDest

/-- The state choices of the module argument spec. -/
inductive MqState where
  | present | absent
deriving DecidableEq, Repr

/-- The attributes suboption of the module. -/
structure MqAttrs where
  dtype : MqType
  encrypted : Bool
  default_ttl : Nat
  default_lock_ttl : Nat
  dead_letter_queue : Option String
  max_deliveries : Nat
  exchange_queues : List String
deriving DecidableEq, Repr

/-- The module parameters that the decision logic inspects. -/
structure MqParams where
  name : String
  state : MqState
  attributes : MqAttrs
deriving DecidableEq, Repr

/-- The context dictionary built by get_context. -/
structure MqContext where
  do_nothing : Bool
  destination_id : Option String
deriving DecidableEq, Repr

/-- The destination search loop of get_context: the first destination whose
type equals the declared attributes type and whose id equals the declared
name (the loop breaks on the first hit). -/
def findDestination (p : MqParams) (store : MqStore) : Option MqDest :=
  store.find? (fun item => item.dtype == p.attributes.dtype && item.destId == p.name)

/-- get_context of ap_mq_destination: look the destination up by type and
name; for present, do nothing exactly when it exists (no attribute is ever
compared); for absent, do nothing exactly when it does not exist. -/
def get_context (p : MqParams) (store : MqStore) : MqContext :=
  let destination_id := (findDestination p store).map (·.destId)
  let do_nothing :=
    match p.state with
    | .present => destination_id.isSome
    | .absent => destination_id.isNone
  { do_nothing := do_nothing, destination_id := destination_id }

/-- One mutating HTTP call of the MQ destination module.  The create and
delete URLs are type specific (queues or exchanges path), so both calls
carry the destination type. -/
inductive MqCall where
  | createDest (name : String) (attrs : MqAttrs)
  | bindQueue (exchangeName queueName : String)
  | deleteDest (dtype : MqType) (name : String)
deriving DecidableEq, Repr

/-- create_mq_destination together with set_exchange_id_on_queues: a PUT that
creates the destination from the declared attributes, followed, for an
exchange with declared exchange_queues, by one binding PUT per queue. -/
def create_mq_destination (p : MqParams) : List MqCall :=
  MqCall.createDest p.name p.attributes ::
    (match p.attributes.dtype with
     | .exchange => p.attributes.exchange_queues.map (MqCall.bindQueue p.name)
     | .queue => [])

/-- run_module of ap_mq_destination: check mode exits unchanged before any
remote interaction; then get_context, exit unchanged when do_nothing,
otherwise create or delete and exit with changed true.  The exit value is
the id field of the result dictionary. -/
def run_module (p : MqParams) (checkMode : Bool) (store : MqStore) :
    List MqCall × Outcome (Option String) :=
  if checkMode then ([], Outcome.exit false none)
  else
    let ctx := get_context p store
    if ctx.do_nothing then ([], Outcome.exit false ctx.destination_id)
    else
      match p.state with
      | .present =>
          (create_mq_destination p, Outcome.exit true (some p.name))
      | .absent =>
          ([MqCall.deleteDest p.attributes.dtype p.name], Outcome.exit true none)

/-- Effect of one mutating HTTP call on the remote destination list,
modelling the documented behavior of the MQ admin API: the create PUT adds a
destination of the declared type, name and attributes; the binding PUT does
not change the destination list; the DELETE removes the destination of that
type and name. -/
def mqStep (store : MqStore) : MqCall → MqStore
  | .createDest name attrs =>
      store ++ [⟨attrs.dtype, name, attrs.encrypted, attrs.default_ttl⟩]
  | .bindQueue _ _ => store
  | .deleteDest dtype name =>
      store.filter (fun it => !(it.dtype == dtype && it.destId == name))

/-- Effect of a whole call trace on the remote destination list. -/
def mqRun (calls : List MqCall) (store : MqStore) : MqStore :=
  calls.foldl mqStep store

end ApMqDestination

namespace ApCloudhubApp

/-!
Embedding of lib/ansible/modules/cloud/anypoint/ap_runtime_mgr_cloudhub_application.py.
The backing store is the optional CloudHub application that the describe-json
CLI call reports for the declared domain name.
-/

/-- The observed CloudHub application as the describe-json output reports it:
the fields that application_needs_update and get_context inspect. -/
structure ChApp where
  fullDomain : String
  status : String
  region : String
  muleVersion : String
  persistentQueues : Bool
  persistentQueuesEncrypted : Bool
  staticIPsEnabled : Bool
  monitoringAutoRestart : Bool
  workersAmount : Nat
  workerWeight : String
deriving DecidableEq, Repr

/-- The state choices of the module argument spec. -/
inductive ChState where
  | present | started | undeployed | absent
deriving DecidableEq, Repr

/-- The module parameters that the decision logic inspects. -/
structure ChParams where
  name : String
  state : ChState
  file : Option String
  runtime : Option String
  workers : Nat
  worker_size : String
  region : String
  persistent_queues : Bool
  persistent_queues_encripted : Bool
  static_ips_enabled : Bool
  auto_restart : Bool
deriving DecidableEq, Repr

/-- application_needs_update: field-by-field comparison of the observed
application against the declared parameters, true when any compared field
differs. -/
def application_needs_update (p : ChParams) (app : ChApp) : Bool :=
  decide (app.region ≠ p.region)
    || decide (some app.muleVersion ≠ p.runtime)
    || decide (app.persistentQueues ≠ p.persistent_queues)
    || decide (app.persistentQueuesEncrypted ≠ p.persistent_queues_encripted)
    || decide (app.staticIPsEnabled ≠ p.static_ips_enabled)
    || decide (app.monitoringAutoRestart ≠ p.auto_restart)
    || decide (app.workersAmount ≠ p.workers)
    || decide (app.workerWeight ≠ p.worker_size)

/-- The context dictionary built by get_context. -/
structure ChContext where
  do_nothing : Bool
  app_url : Option String
  app_status : Option String
  must_update : Bool
deriving DecidableEq, Repr

/-- get_context of the CloudHub application module: describe the application;
present does nothing when the application exists and needs no update;
started and undeployed fail when the application does not exist and do
nothing when it is already in the target status; absent does nothing when
the application does not exist or is already deleted. -/
def get_context (p : ChParams) (app? : Option ChApp) :
    Except String ChContext :=
  let base : ChContext :=
    { do_nothing := false,
      app_url := app?.map (·.fullDomain),
      app_status := app?.map (·.status),
      must_update := false }
  match p.state with
  | .present =>
      match app? with
      | some app =>
          let mu := application_needs_update p app
          Except.ok { base with must_update := mu, do_nothing := mu == false }
      | none => Except.ok base
  | .started =>
      match app? with
      | some app =>
          Except.ok { base with
                      do_nothing := app.status == "STARTED" || app.status == "DEPLOYING" }
      | none =>
          Except.error "Error: \"started\" state requires a present object"
  | .undeployed =>
      match app? with
      | some app =>
          Except.ok { base with do_nothing := app.status == "UNDEPLOYED" }
      | none =>
          Except.error "Error: \"undeployed\" state requires a present object"
  | .absent =>
      match app? with
      | some app => Except.ok { base with do_nothing := app.status == "DELETED" }
      | none => Except.ok { base with do_nothing := true }

/-- One mutating anypoint-cli call of the CloudHub application module. -/
inductive ChCall where
  | deploy (name : String)
  | modify (name : String)
  | start (name : String)
  | stop (name : String)
  | delete (name : String)
deriving DecidableEq, Repr

/-- run_module of the CloudHub application module: validate the parameters
the present state requires (file and runtime), exit unchanged in check mode,
then get_context (which may fail), exit unchanged when do_nothing, otherwise
deploy or modify for present (modify exactly when must_update), start, stop
or delete, and exit with changed true.  The remaining parameter
cross-validations (properties file conflicts, api_manager completeness) only
inspect declared parameters and are not modelled. -/
def run_module (p : ChParams) (checkMode : Bool) (app? : Option ChApp) :
    List ChCall × Outcome Bool :=
  if p.state == ChState.present && p.file.isNone then
    ([], Outcome.fail "present state needs \x27file\x27 option")
  else if p.state == ChState.present && p.runtime.isNone then
    ([], Outcome.fail "present state needs \x27runtime\x27 option")
  else if checkMode then ([], Outcome.exit false false)
  else
    match get_context p app? with
    | .error m => ([], Outcome.fail m)
    | .ok ctx =>
        if ctx.do_nothing then ([], Outcome.exit false false)
        else
          match p.state with
          | .present =>
              if ctx.must_update then ([ChCall.modify p.name], Outcome.exit true true)
              else ([ChCall.deploy p.name], Outcome.exit true true)
          | .started => ([ChCall.start p.name], Outcome.exit true true)
          | .undeployed => ([ChCall.stop p.name], Outcome.exit true true)
          | .absent => ([ChCall.delete p.name], Outcome.exit true true)

end ApCloudhubApp

namespace ApExchangeAsset

/-!
Embedding of lib/ansible/modules/cloud/anypoint/ap_exchange_asset.py.
The backing store is the optional Exchange asset found at the declared
group/asset/version coordinate.  The declared icon and each remote icon file
are represented by their md5 digest, since the source only ever uses the
local icon file through module.md5 and the remote one through its md5 field.
-/

/-- One file attached to the asset, as the Exchange v2 asset endpoint reports
it: its classifier and its md5 digest. -/
structure ExFile where
  classifier : String
  md5 : String
deriving DecidableEq, Repr

/-- The observed Exchange asset: the fields inspected by
look_asset_on_exchange and analyze_asset. -/
structure ExAsset where
  assetId : String
  groupId : String
  version : String
  atype : String
  status : String
  name : String
  labels : List String
  description : Option String
  files : List ExFile
deriving DecidableEq, Repr

/-- The state choices of the module argument spec. -/
inductive ExState where
  | present | deprecated | absent
deriving DecidableEq, Repr

/-- The module parameters that the decision logic inspects.  icon holds the
md5 digest of the declared icon file, or none when no icon is declared. -/
structure ExParams where
  name : String
  state : ExState
  atype : String
  group_id : String
  asset_id : String
  asset_version : String
  tags : List String
  description : Option String
  icon : Option String
deriving DecidableEq, Repr

/-- The result dictionary of the module-local analyze_asset. -/
structure ExAnalysis where
  must_update : Bool
  deprecated : Bool
deriving DecidableEq, Repr

/-- analyze_asset of ap_exchange_asset: the asset must be updated when the
declared tag list differs from the observed labels as plain lists, or a
declared description differs from the observed one; otherwise, when an icon
is declared, it must be updated unless some remote file with the icon
classifier carries the same md5 digest (the loop clears the flag on the
first digest hit). -/
def analyze_asset (p : ExParams) (asset : ExAsset) : ExAnalysis :=
  let deprecated := asset.status == "deprecated"
  let must_update :=
    if p.tags ≠ asset.labels
        || (p.description.isSome && decide (p.description ≠ asset.description)) then
      true
    else
      match p.icon with
      | some digest =>
          !(asset.files.any (fun f => f.classifier == "icon" && f.md5 == digest))
      | none => false
  { must_update := must_update, deprecated := deprecated }

/-- look_asset_on_exchange: the GraphQL lookup for the declared coordinate;
the asset is found when one exists there and its assetId, groupId, version
and type all equal the declared ones. -/
def look_asset_on_exchange (p : ExParams) (store : Option ExAsset) :
    Option String :=
  match store with
  | some a =>
      if a.assetId == p.asset_id && a.groupId == p.group_id
          && a.version == p.asset_version && a.atype == p.atype then
        some a.assetId
      else none
  | none => none

/-- The context dictionary built by get_context. -/
structure ExContext where
  do_nothing : Bool
  exists_ : Bool
  must_update : Bool
  deprecated : Bool
deriving DecidableEq, Repr

/-- get_context of ap_exchange_asset: look the asset up; for present and
deprecated analyze it when it exists (present does nothing when nothing must
change and the asset is not deprecated, deprecated does nothing when it is
already deprecated); absent does nothing when the asset does not exist. -/
def get_context (p : ExParams) (store : Option ExAsset) : ExContext :=
  let exists_ := (look_asset_on_exchange p store).isSome
  let base : ExContext :=
    { do_nothing := false, exists_ := exists_, must_update := false,
      deprecated := false }
  match p.state with
  | .present =>
      if exists_ then
        match store with
        | some asset =>
            let r := analyze_asset p asset
            { base with
              must_update := r.must_update, deprecated := r.deprecated,
              do_nothing := r.must_update == false && r.deprecated == false }
        | none => base
      else base
  | .deprecated =>
      if exists_ then
        match store with
        | some asset =>
            let r := analyze_asset p asset
            { base with
              must_update := r.must_update, deprecated := r.deprecated,
              do_nothing := r.deprecated == true }
        | none => base
      else base
  | .absent => { base with do_nothing := exists_ == false }

/-- One mutating remote call of the Exchange asset module.  upload stands
for the maven or CLI upload of the asset itself; setTags, setDescription and
setIcon are the three HTTP calls of modify_exchange_asset; undeprecate and
deprecate are the CLI transition calls; delete is the HTTP delete. -/
inductive ExCall where
  | upload
  | setTags (tags : List String)
  | setDescription (description : Option String)
  | setIcon (icon : Option String)
  | undeprecate
  | deprecate
  | delete
deriving DecidableEq, Repr

/-- modify_exchange_asset of ap_exchange_asset: unconditionally set the
tags, the description and the icon, in that order. -/
def modify_exchange_asset (p : ExParams) : List ExCall :=
  [ExCall.setTags p.tags, ExCall.setDescription p.description,
   ExCall.setIcon p.icon]

/-- upload_exchange_asset: upload the asset, then run
modify_exchange_asset to update the remaining fields. -/
def upload_exchange_asset (p : ExParams) : List ExCall :=
  ExCall.upload :: modify_exchange_asset p

/-- run_module of ap_exchange_asset, from the get_context call on: exit
unchanged when do_nothing, otherwise dispatch on the declared state.  For
present: upload when the asset does not exist, else undeprecate first when it
is deprecated and then modify when it must change.  For deprecated: upload
when it does not exist, modify when it must change, then always deprecate.
For absent: delete.  Every taken path exits with changed true.  Check mode
exits unchanged before get_context and is modelled by the checkMode flag. -/
def run_module (p : ExParams) (checkMode : Bool) (store : Option ExAsset) :
    List ExCall × Outcome Unit :=
  if checkMode then ([], Outcome.exit false ())
  else
    let ctx := get_context p store
    if ctx.do_nothing then ([], Outcome.exit false ())
    else
      match p.state with
      | .present =>
          if ctx.exists_ == false then
            (upload_exchange_asset p, Outcome.exit true ())
          else
            ((if ctx.deprecated then [ExCall.undeprecate] else []) ++
             (if ctx.must_update then modify_exchange_asset p else []),
             Outcome.exit true ())
      | .deprecated =>
          ((if ctx.exists_ == false then upload_exchange_asset p else []) ++
           (if ctx.must_update then modify_exchange_asset p else []) ++
           [ExCall.deprecate],
           Outcome.exit true ())
      | .absent => ([ExCall.delete], Outcome.exit true ())

end ApExchangeAsset

namespace ApExchangeCommon

/-!
Embedding of the shared
lib/ansible/module_utils/cloud/anypoint/ap_exchange_common.py analyze_asset,
which ap_design_center_project uses for the exchange metadata of a published
project.  Assets and digests are modelled as in ApExchangeAsset.
-/

/-- The result dictionary of the shared analyze_asset. -/
structure ExCommonAnalysis where
  must_update : Bool
  must_update_name : Bool
  must_update_icon : Bool
  must_update_description : Bool
  must_update_tags : Bool
  deprecated : Bool
deriving DecidableEq, Repr

/-- analyze_asset of ap_exchange_common: per-field flags.  The name flag
requires a declared name that differs; the tags flag is plain list
inequality; the description flag is plain inequality with no declared-none
guard.  For the icon, the first remote file with the icon classifier is the
actual icon; the flag is set when exactly one of declared and actual icon is
present, and, when both are present, exactly when the two md5 digests are
EQUAL, faithfully reproducing the comparison the source performs there. -/
def analyze_asset (name : Option String) (description : Option String)
    (icon : Option String) (tags : List String)
    (asset : ApExchangeAsset.ExAsset) : ExCommonAnalysis :=
  let deprecated := asset.status == "deprecated"
  let must_update_name := name.isSome && decide (name ≠ some asset.name)
  let must_update_tags := decide (tags ≠ asset.labels)
  let must_update_description := decide (description ≠ asset.description)
  let actual_icon := asset.files.find? (fun f => f.classifier == "icon")
  let must_update_icon :=
    match actual_icon, icon with
    | none, some _ => true
    | some _, none => true
    | some ai, some digest => digest == ai.md5
    | none, none => false
  { must_update :=
      must_update_description || must_update_icon || must_update_tags
        || must_update_name,
    must_update_name := must_update_name,
    must_update_icon := must_update_icon,
    must_update_description := must_update_description,
    must_update_tags := must_update_tags,
    deprecated := deprecated }

end ApExchangeCommon

namespace Transport

/-!
Embedding of the transport-error handling: execute_http_call of the shared
lib/ansible/module_utils/cloud/anypoint/ap_common.py against execute_http_call
of lib/ansible/modules/cloud/mulesoft/ap_exchange_application.py, and the
CLI wrappers.  An HTTP call either yields a response body or raises (network
error, or a non-2xx status raised by open_url as an HTTPError).
-/

/-- Outcome of the underlying open_url invocation. -/
inductive HttpResult where
  | success (body : String)
  | failure (err : String)
deriving DecidableEq, Repr

/-- How the wrapper leaves the module: with a returned response, with a
fail_json termination, or with a successful exit_json termination. -/
inductive CallExit where
  | returned (body : Option String)
  | moduleFailed (msg : String)
  | moduleExitedOk (msg : String)
deriving DecidableEq, Repr

/-- execute_http_call of ap_common: without headers the module fails; a
raised call fails the module with the caller, method, url and error in the
message; a successful call returns the response. -/
def ap_common_execute_http_call (caller : String) (hasHeaders : Bool)
    (method : String) (url : String) (r : HttpResult) : CallExit :=
  if hasHeaders then
    match r with
    | .success body => CallExit.returned (some body)
    | .failure e =>
        CallExit.moduleFailed
          (caller ++ " Error executing HTTP call " ++ method ++ " to " ++ url
            ++ " [" ++ e ++ "]")
  else
    CallExit.moduleFailed (caller ++ " Can not execute an HTTP call without headers")

/-- execute_http_call of mulesoft/ap_exchange_application: a raised call is
caught and answered with exit_json, a successful module termination whose
message is the error text; only a successful call returns the response.
Without headers the function falls through to return a variable that the
source never assigned (the initialisation binds a differently-capitalised
name), which raises an unhandled NameError. -/
def ap_exchange_application_execute_http_call (hasHeaders : Bool)
    (r : HttpResult) : CallExit :=
  if hasHeaders then
    match r with
    | .success body => CallExit.returned (some body)
    | .failure e => CallExit.moduleExitedOk e
  else
    CallExit.moduleFailed "NameError: name \x27return_value\x27 is not defined"

/-- do_no_action of mulesoft/ap_account_business_group, reduced to its
error handling: a non-zero CLI exit code is answered with exit_json (a
successful module termination) carrying the CLI stderr as the message. -/
def ap_account_business_group_cli_errpath (exitCode : Nat) (output : String) :
    CallExit :=
  if exitCode ≠ 0 then CallExit.moduleExitedOk output
  else CallExit.returned (some output)

/-- execute_anypoint_cli of ap_common: a non-zero exit code fails the
module. -/
def ap_common_execute_anypoint_cli (caller : String) (exitCode : Nat)
    (output : String) : CallExit :=
  if exitCode ≠ 0 then CallExit.moduleFailed (caller ++ " " ++ output)
  else CallExit.returned (some output)

end Transport

end MulesoftAnsible

namespace MulesoftAnsible

namespace ApApiMgrPolicy

/-- The do_no_action loop computes exactly the context of the last matching
applied policy. -/
theorem foldl_scanStep_ctxOf (name : String) :
    ∀ (store : PolicyStore) (opt : Option PolicyItem),
      store.foldl (scanStep name) (ctxOf opt)
        = ctxOf (store.foldl (lastStep name) opt) := by
  intro store
  induction store with
  | nil => intro opt; rfl
  | cons it rest ih =>
      intro opt
      simp only [List.foldl]
      cases h : it.assetId == name with
      | true =>
          have h1 : scanStep name (ctxOf opt) it = ctxOf (some it) := by
            cases opt <;> simp [scanStep, ctxOf, h, initContext]
          have h2 : lastStep name opt it = some it := by simp [lastStep, h]
          rw [h1, h2]; exact ih (some it)
      | false =>
          have h1 : scanStep name (ctxOf opt) it = ctxOf opt := by
            simp [scanStep, h]
          have h2 : lastStep name opt it = opt := by simp [lastStep, h]
          rw [h1, h2]; exact ih opt

/-- scanApplied in terms of the last matching applied policy. -/
theorem scanApplied_eq (name : String) (store : PolicyStore) :
    scanApplied name store = ctxOf (lastMatch name store) :=
  foldl_scanStep_ctxOf name store none

/-- An applied policy surviving the search loop is a matching store member,
unless it already was the accumulator. -/
theorem foldl_lastStep_mem (name : String) :
    ∀ (store : PolicyStore) (opt : Option PolicyItem) (it : PolicyItem),
      store.foldl (lastStep name) opt = some it →
      (it ∈ store ∧ (it.assetId == name) = true) ∨ opt = some it := by
  intro store
  induction store with
  | nil => intro opt it h; right; exact h
  | cons x rest ih =>
      intro opt it h
      simp only [List.foldl] at h
      cases hx : x.assetId == name with
      | true =>
          rw [show lastStep name opt x = some x from by simp [lastStep, hx]] at h
          rcases ih (some x) it h with h1 | h2
          · exact Or.inl ⟨List.mem_cons_of_mem _ h1.1, h1.2⟩
          · obtain rfl := Option.some.inj h2
            exact Or.inl ⟨List.mem_cons_self _ _, hx⟩
      | false =>
          rw [show lastStep name opt x = opt from by simp [lastStep, hx]] at h
          rcases ih opt it h with h1 | h2
          · exact Or.inl ⟨List.mem_cons_of_mem _ h1.1, h1.2⟩
          · exact Or.inr h2

/-- The last matching applied policy is a matching member of the store. -/
theorem lastMatch_mem (name : String) (store : PolicyStore) (it : PolicyItem)
    (h : lastMatch name store = some it) :
    it ∈ store ∧ (it.assetId == name) = true := by
  rcases foldl_lastStep_mem name store none it h with h1 | h2
  · exact h1
  · exact absurd h2 (by simp)

/-- Folding the search step over a store without any matching member leaves
the accumulator unchanged. -/
theorem foldl_lastStep_nomatch (name : String) :
    ∀ (l : PolicyStore) (opt : Option PolicyItem),
      (∀ x ∈ l, (x.assetId == name) = false) →
      l.foldl (lastStep name) opt = opt := by
  intro l
  induction l with
  | nil => intro opt _; rfl
  | cons x rest ih =>
      intro opt h
      simp only [List.foldl]
      rw [show lastStep name opt x = opt from by
        simp [lastStep, h x (List.mem_cons_self _ _)]]
      exact ih opt (fun y hy => h y (List.mem_cons_of_mem _ hy))

/-- The search step commutes with mapping an assetId-preserving function
over the store. -/
theorem foldl_lastStep_map (name : String) (f : PolicyItem → PolicyItem)
    (hf : ∀ it, (f it).assetId = it.assetId) :
    ∀ (store : PolicyStore) (opt : Option PolicyItem),
      (store.map f).foldl (lastStep name) (Option.map f opt)
        = Option.map f (store.foldl (lastStep name) opt) := by
  intro store
  induction store with
  | nil => intro opt; rfl
  | cons it rest ih =>
      intro opt
      simp only [List.map, List.foldl]
      cases h : it.assetId == name with
      | true =>
          have hfi : ((f it).assetId == name) = true := by rw [hf it]; exact h
          rw [show lastStep name (Option.map f opt) (f it) = some (f it) from by
                simp [lastStep, hfi],
              show lastStep name opt it = some it from by simp [lastStep, h]]
          exact ih (some it)
      | false =>
          have hfi : ((f it).assetId == name) = false := by rw [hf it]; exact h
          rw [show lastStep name (Option.map f opt) (f it) = Option.map f opt from by
                simp [lastStep, hfi],
              show lastStep name opt it = opt from by simp [lastStep, h]]
          exact ih opt

/-- The status-update of the enable call preserves asset ids. -/
theorem enableMap_assetId (pid : String) (it : PolicyItem) :
    ((fun it => if it.pid == pid then { it with status := "Enabled" } else it) it).assetId
      = it.assetId := by
  by_cases h : (it.pid == pid) = true <;> simp [h]

/-- The status-update of the disable call preserves asset ids. -/
theorem disableMap_assetId (pid : String) (it : PolicyItem) :
    ((fun it => if it.pid == pid then { it with status := "Disabled" } else it) it).assetId
      = it.assetId := by
  by_cases h : (it.pid == pid) = true <;> simp [h]

/-- A second policy run right after a first one performs no call and never
reports changed, for every target other than present, provided all applied
policies of the declared asset share one policy id. -/
theorem policy_second_run (p : PolicyParams) (fid fid2 : String)
    (store : PolicyStore)
    (h1 : p.state ≠ PolState.present)
    (h2 : ∀ x ∈ store, ∀ y ∈ store, (x.assetId == p.name) = true →
      (y.assetId == p.name) = true → x.pid = y.pid) :
    (run_module p false fid2
      (policyRun (run_module p false fid store).1 store)).1 = []
    ∧ changedFlag (run_module p false fid2
        (policyRun (run_module p false fid store).1 store)).2 ≠ some true := by
  cases hp : p.state with
  | present => exact absurd hp h1
  | enabled =>
      cases hm : lastMatch p.name store with
      | none =>
          have hdo : do_no_action p store
              = Except.error "enabled state requires an existing policy applied" := by
            simp [do_no_action, hp, scanApplied_eq, hm, ctxOf, initContext]
          have hr1 : run_module p false fid store = ([], Outcome.fail
              "enabled state requires an existing policy applied") := by
            simp [run_module, hdo]
          have hr2 : run_module p false fid2 store = ([], Outcome.fail
              "enabled state requires an existing policy applied") := by
            simp [run_module, hdo]
          rw [hr1]
          show (run_module p false fid2 (policyRun [] store)).1 = [] ∧ _
          rw [show policyRun [] store = store from rfl, hr2]
          exact ⟨rfl, by simp [changedFlag]⟩
      | some it0 =>
          cases he : it0.status == "Enabled" with
          | true =>
              have hdo : do_no_action p store = Except.ok
                  { do_nothing := true, policy_id := some it0.pid,
                    policy_asset_version := some it0.assetVersion,
                    policy_enabled := true } := by
                simp [do_no_action, hp, scanApplied_eq, hm, ctxOf, he]
              have hr : ∀ g, run_module p false g store
                  = ([], Outcome.exit false none) := by
                intro g; simp [run_module, hdo]
              rw [hr fid]
              show (run_module p false fid2 (policyRun [] store)).1 = [] ∧ _
              rw [show policyRun [] store = store from rfl, hr fid2]
              exact ⟨rfl, by simp [changedFlag]⟩
          | false =>
              have hdo : do_no_action p store = Except.ok
                  { do_nothing := false, policy_id := some it0.pid,
                    policy_asset_version := some it0.assetVersion,
                    policy_enabled := false } := by
                simp [do_no_action, hp, scanApplied_eq, hm, ctxOf, he]
              have hr1 : run_module p false fid store
                  = ([PolicyCall.enable it0.pid],
                     Outcome.exit true (some it0.pid)) := by
                simp [run_module, hdo, hp]
              rw [hr1]
              have hstep : policyRun [PolicyCall.enable it0.pid] store
                  = store.map (fun it =>
                      if it.pid == it0.pid then { it with status := "Enabled" } else it) := by
                rfl
              rw [hstep]
              have hmap : lastMatch p.name (store.map (fun it =>
                  if it.pid == it0.pid then { it with status := "Enabled" } else it))
                  = some { it0 with status := "Enabled" } := by
                have := foldl_lastStep_map p.name _
                  (enableMap_assetId it0.pid) store none
                rw [show lastMatch p.name (store.map _) = _ from this]
                rw [show store.foldl (lastStep p.name) none = some it0 from hm]
                simp
              generalize hgen : store.map (fun it =>
                  if it.pid == it0.pid then { it with status := "Enabled" } else it)
                  = s2 at hmap ⊢
              have hscan2 : scanApplied p.name s2
                  = ctxOf (some { it0 with status := "Enabled" }) := by
                rw [scanApplied_eq, hmap]
              have hdo2 : do_no_action p s2
                  = Except.ok { do_nothing := true, policy_id := some it0.pid,
                                policy_asset_version := some it0.assetVersion,
                                policy_enabled := true } := by
                simp [do_no_action, hp, hscan2, ctxOf]
              have hr2 : run_module p false fid2 s2
                  = ([], Outcome.exit false none) := by
                simp [run_module, hdo2]
              rw [hr2]
              exact ⟨rfl, by simp [changedFlag]⟩
  | disabled =>
      cases hm : lastMatch p.name store with
      | none =>
          have hdo : do_no_action p store
              = Except.error "disabled state requires an existing policy applied" := by
            simp [do_no_action, hp, scanApplied_eq, hm, ctxOf, initContext]
          have hr : ∀ g, run_module p false g store = ([], Outcome.fail
              "disabled state requires an existing policy applied") := by
            intro g; simp [run_module, hdo]
          rw [hr fid]
          show (run_module p false fid2 (policyRun [] store)).1 = [] ∧ _
          rw [show policyRun [] store = store from rfl, hr fid2]
          exact ⟨rfl, by simp [changedFlag]⟩
      | some it0 =>
          cases he : it0.status == "Enabled" with
          | false =>
              have hdo : do_no_action p store = Except.ok
                  { do_nothing := true, policy_id := some it0.pid,
                    policy_asset_version := some it0.assetVersion,
                    policy_enabled := false } := by
                simp [do_no_action, hp, scanApplied_eq, hm, ctxOf, he]
              have hr : ∀ g, run_module p false g store
                  = ([], Outcome.exit false none) := by
                intro g; simp [run_module, hdo]
              rw [hr fid]
              show (run_module p false fid2 (policyRun [] store)).1 = [] ∧ _
              rw [show policyRun [] store = store from rfl, hr fid2]
              exact ⟨rfl, by simp [changedFlag]⟩
          | true =>
              have hdo : do_no_action p store = Except.ok
                  { do_nothing := false, policy_id := some it0.pid,
                    policy_asset_version := some it0.assetVersion,
                    policy_enabled := true } := by
                simp [do_no_action, hp, scanApplied_eq, hm, ctxOf, he]
              have hr1 : run_module p false fid store
                  = ([PolicyCall.disable it0.pid],
                     Outcome.exit true (some it0.pid)) := by
                simp [run_module, hdo, hp]
              rw [hr1]
              have hstep : policyRun [PolicyCall.disable it0.pid] store
                  = store.map (fun it =>
                      if it.pid == it0.pid then { it with status := "Disabled" } else it) := by
                rfl
              rw [hstep]
              have hmap : lastMatch p.name (store.map (fun it =>
                  if it.pid == it0.pid then { it with status := "Disabled" } else it))
                  = some { it0 with status := "Disabled" } := by
                have := foldl_lastStep_map p.name _
                  (disableMap_assetId it0.pid) store none
                rw [show lastMatch p.name (store.map _) = _ from this]
                rw [show store.foldl (lastStep p.name) none = some it0 from hm]
                simp
              generalize hgen : store.map (fun it =>
                  if it.pid == it0.pid then { it with status := "Disabled" } else it)
                  = s2 at hmap ⊢
              have hscan2 : scanApplied p.name s2
                  = ctxOf (some { it0 with status := "Disabled" }) := by
                rw [scanApplied_eq, hmap]
              have hdo2 : do_no_action p s2
                  = Except.ok { do_nothing := true, policy_id := some it0.pid,
                                policy_asset_version := some it0.assetVersion,
                                policy_enabled := false } := by
                simp [do_no_action, hp, hscan2, ctxOf]
              have hr2 : run_module p false fid2 s2
                  = ([], Outcome.exit false none) := by
                simp [run_module, hdo2]
              rw [hr2]
              exact ⟨rfl, by simp [changedFlag]⟩
  | absent =>
      cases hm : lastMatch p.name store with
      | none =>
          have hdo : do_no_action p store = Except.ok
              { initContext with do_nothing := true } := by
            simp [do_no_action, hp, scanApplied_eq, hm, ctxOf, initContext]
          have hr : ∀ g, run_module p false g store
              = ([], Outcome.exit false none) := by
            intro g; simp [run_module, hdo, initContext]
          rw [hr fid]
          show (run_module p false fid2 (policyRun [] store)).1 = [] ∧ _
          rw [show policyRun [] store = store from rfl, hr fid2]
          exact ⟨rfl, by simp [changedFlag]⟩
      | some it0 =>
          have hdo : do_no_action p store = Except.ok
              { do_nothing := false, policy_id := some it0.pid,
                policy_asset_version := some it0.assetVersion,
                policy_enabled := it0.status == "Enabled" } := by
            simp [do_no_action, hp, scanApplied_eq, hm, ctxOf]
          have hr1 : run_module p false fid store
              = ([PolicyCall.remove it0.pid],
                 Outcome.exit true (some it0.pid)) := by
            simp [run_module, hdo, hp]
          rw [hr1]
          have hstep : policyRun [PolicyCall.remove it0.pid] store
              = store.filter (fun it => it.pid != it0.pid) := by
            rfl
          rw [hstep]
          have hmem := lastMatch_mem p.name store it0 hm
          have hnone : lastMatch p.name (store.filter (fun it => it.pid != it0.pid))
              = none := by
            apply foldl_lastStep_nomatch
            intro x hx
            have hx1 : x ∈ store := (List.mem_filter.mp hx).1
            have hx2 : (x.pid != it0.pid) = true := (List.mem_filter.mp hx).2
            cases hxa : x.assetId == p.name with
            | false => rfl
            | true =>
                have := h2 x hx1 it0 hmem.1 hxa hmem.2
                rw [this] at hx2
                simp at hx2
          generalize hgen : store.filter (fun it => it.pid != it0.pid) = s2 at hnone ⊢
          have hscan2 : scanApplied p.name s2 = ctxOf none := by
            rw [scanApplied_eq, hnone]
          have hdo2 : do_no_action p s2
              = Except.ok { initContext with do_nothing := true } := by
            simp [do_no_action, hp, hscan2, ctxOf, initContext]
          have hr2 : run_module p false fid2 s2
              = ([], Outcome.exit false none) := by
            simp [run_module, hdo2, initContext]
          rw [hr2]
          exact ⟨rfl, by simp [changedFlag]⟩

end ApApiMgrPolicy

/-- Searching an appended list starts over on the second part when the first
part has no hit. -/
theorem find?_append_of_none {α : Type} (f : α → Bool) :
    ∀ (l1 l2 : List α), l1.find? f = none → (l1 ++ l2).find? f = l2.find? f := by
  intro l1
  induction l1 with
  | nil => intro l2 _; rfl
  | cons x rest ih =>
      intro l2 h
      cases hx : f x with
      | true => simp [List.find?, hx] at h
      | false =>
          simp only [List.find?, hx] at h
          simp only [List.cons_append, List.find?, hx]
          exact ih l2 h

/-- A list on which the predicate is everywhere false has no hit. -/
theorem find?_eq_none_of_false {α : Type} (f : α → Bool) :
    ∀ (l : List α), (∀ x ∈ l, f x = false) → l.find? f = none := by
  intro l
  induction l with
  | nil => intro _; rfl
  | cons x rest ih =>
      intro h
      simp only [List.find?, h x (List.mem_cons_self _ _)]
      exact ih (fun y hy => h y (List.mem_cons_of_mem _ hy))

namespace ApMqDestination

/-- The binding PUT calls of an exchange leave the destination list
unchanged. -/
theorem mq_bind_noop (en : String) :
    ∀ (qs : List String) (s : MqStore),
      (qs.map (MqCall.bindQueue en)).foldl mqStep s = s := by
  intro qs
  induction qs with
  | nil => intro s; rfl
  | cons q rest ih => intro s; simpa [mqStep] using ih s

/-- A second MQ destination run right after a first one performs no call and
never reports changed, for both targets and any store. -/
theorem mq_second_run (p : MqParams) (store : MqStore) :
    (run_module p false (mqRun (run_module p false store).1 store)).1 = []
    ∧ changedFlag (run_module p false
        (mqRun (run_module p false store).1 store)).2 ≠ some true := by
  cases hp : p.state with
  | present =>
      cases hf : findDestination p store with
      | some d =>
          have hr1 : run_module p false store
              = ([], Outcome.exit false (some d.destId)) := by
            simp [run_module, get_context, hp, hf]
          rw [hr1]
          show (run_module p false (mqRun [] store)).1 = [] ∧ _
          rw [show mqRun [] store = store from rfl, hr1]
          exact ⟨rfl, by simp [changedFlag]⟩
      | none =>
          have hr1 : run_module p false store
              = (create_mq_destination p, Outcome.exit true (some p.name)) := by
            simp [run_module, get_context, hp, hf]
          rw [hr1]
          have hstore : mqRun (create_mq_destination p) store
              = store ++ [⟨p.attributes.dtype, p.name, p.attributes.encrypted,
                           p.attributes.default_ttl⟩] := by
            cases hdt : p.attributes.dtype <;>
              simp [create_mq_destination, mqRun, mqStep, hdt, mq_bind_noop]
          rw [hstore]
          have hfind2 : findDestination p (store ++
              [⟨p.attributes.dtype, p.name, p.attributes.encrypted,
                p.attributes.default_ttl⟩])
              = some ⟨p.attributes.dtype, p.name, p.attributes.encrypted,
                      p.attributes.default_ttl⟩ := by
            rw [findDestination,
                find?_append_of_none _ store _ hf]
            simp [List.find?]
          generalize hgen : store ++
              [MqDest.mk p.attributes.dtype p.name p.attributes.encrypted
                p.attributes.default_ttl] = s2 at hfind2 ⊢
          have hr2 : run_module p false s2
              = ([], Outcome.exit false (some p.name)) := by
            simp [run_module, get_context, hp, hfind2]
          rw [hr2]
          exact ⟨rfl, by simp [changedFlag]⟩
  | absent =>
      cases hf : findDestination p store with
      | none =>
          have hr1 : run_module p false store
              = ([], Outcome.exit false none) := by
            simp [run_module, get_context, hp, hf]
          rw [hr1]
          show (run_module p false (mqRun [] store)).1 = [] ∧ _
          rw [show mqRun [] store = store from rfl, hr1]
          exact ⟨rfl, by simp [changedFlag]⟩
      | some d =>
          have hr1 : run_module p false store
              = ([MqCall.deleteDest p.attributes.dtype p.name],
                 Outcome.exit true none) := by
            simp [run_module, get_context, hp, hf]
          rw [hr1]
          have hstore : mqRun [MqCall.deleteDest p.attributes.dtype p.name] store
              = store.filter (fun it =>
                  !(it.dtype == p.attributes.dtype && it.destId == p.name)) := by
            rfl
          rw [hstore]
          have hfind2 : findDestination p (store.filter (fun it =>
              !(it.dtype == p.attributes.dtype && it.destId == p.name))) = none := by
            rw [findDestination]
            apply find?_eq_none_of_false
            intro x hx
            have hkeep : (!(x.dtype == p.attributes.dtype && x.destId == p.name))
                = true := (List.mem_filter.mp hx).2
            show (x.dtype == p.attributes.dtype && x.destId == p.name) = false
            cases hb : (x.dtype == p.attributes.dtype && x.destId == p.name) with
            | false => rfl
            | true => rw [hb] at hkeep; exact absurd hkeep (by decide)
          generalize hgen : store.filter (fun it =>
              !(it.dtype == p.attributes.dtype && it.destId == p.name)) = s2
            at hfind2 ⊢
          have hr2 : run_module p false s2
              = ([], Outcome.exit false none) := by
            simp [run_module, get_context, hp, hfind2]
          rw [hr2]
          exact ⟨rfl, by simp [changedFlag]⟩

end ApMqDestination

/-- Claim C1, counterexample: ap_api_mgr_policy with state present is not
idempotent.  With the policy already applied at the declared version, the
first run reports changed and issues an edit; the second run, against the
unchanged backing store, again reports changed and again issues the same
redundant edit call, so changed is reported twice and the second run is not
changed-false. -/
theorem c1_idempotence_counterexample :
    changedFlag (ApApiMgrPolicy.run_module
      ⟨"client-id-enforcement", .present, "1.0.0"⟩ false "999"
      [⟨"client-id-enforcement", "123", "1.0.0", "Enabled"⟩]).2 = some true
    ∧ changedFlag (ApApiMgrPolicy.run_module
        ⟨"client-id-enforcement", .present, "1.0.0"⟩ false "998"
        (ApApiMgrPolicy.policyRun
          (ApApiMgrPolicy.run_module
            ⟨"client-id-enforcement", .present, "1.0.0"⟩ false "999"
            [⟨"client-id-enforcement", "123", "1.0.0", "Enabled"⟩]).1
          [⟨"client-id-enforcement", "123", "1.0.0", "Enabled"⟩])).2 = some true
    ∧ (ApApiMgrPolicy.run_module
        ⟨"client-id-enforcement", .present, "1.0.0"⟩ false "998"
        (ApApiMgrPolicy.policyRun
          (ApApiMgrPolicy.run_module
            ⟨"client-id-enforcement", .present, "1.0.0"⟩ false "999"
            [⟨"client-id-enforcement", "123", "1.0.0", "Enabled"⟩]).1
          [⟨"client-id-enforcement", "123", "1.0.0", "Enabled"⟩])).1
      = [ApApiMgrPolicy.PolicyCall.edit "123"] := by
  decide

/-- Claim C1, amended: running the same reconciliation twice against the same
backing store reports changed at most once for ap_mq_destination (both
targets, unconditionally) and for ap_api_mgr_policy on the enabled, disabled
and absent targets (when the applied policies of the declared asset share one
policy id); in those cases the second run performs no mutating call and never
reports changed.  The present target of ap_api_mgr_policy is excluded: it
re-edits and reports changed on every run. -/
theorem c1_idempotence_amended :
    (∀ (p : ApMqDestination.MqParams) (store : ApMqDestination.MqStore),
      (ApMqDestination.run_module p false
        (ApMqDestination.mqRun (ApMqDestination.run_module p false store).1 store)).1 = []
      ∧ changedFlag (ApMqDestination.run_module p false
          (ApMqDestination.mqRun
            (ApMqDestination.run_module p false store).1 store)).2 ≠ some true)
    ∧ (∀ (p : ApApiMgrPolicy.PolicyParams) (fid fid2 : String)
          (store : ApApiMgrPolicy.PolicyStore),
        p.state ≠ ApApiMgrPolicy.PolState.present →
        (∀ x ∈ store, ∀ y ∈ store, (x.assetId == p.name) = true →
          (y.assetId == p.name) = true → x.pid = y.pid) →
        (ApApiMgrPolicy.run_module p false fid2
          (ApApiMgrPolicy.policyRun
            (ApApiMgrPolicy.run_module p false fid store).1 store)).1 = []
        ∧ changedFlag (ApApiMgrPolicy.run_module p false fid2
            (ApApiMgrPolicy.policyRun
              (ApApiMgrPolicy.run_module p false fid store).1 store)).2 ≠ some true) :=
  ⟨fun p store => ApMqDestination.mq_second_run p store,
   fun p fid fid2 store h1 h2 =>
     ApApiMgrPolicy.policy_second_run p fid fid2 store h1 h2⟩

/-- Claim C1, witness for the amended theorem at a concrete input: deleting
an applied policy and reconciling absent again is changed-false with no
call. -/
theorem c1_idempotence_amended_witness :
    (ApApiMgrPolicy.run_module ⟨"cie", .absent, "1.0.0"⟩ false "998"
      (ApApiMgrPolicy.policyRun
        (ApApiMgrPolicy.run_module ⟨"cie", .absent, "1.0.0"⟩ false "999"
          [⟨"cie", "123", "1.0.0", "Enabled"⟩]).1
        [⟨"cie", "123", "1.0.0", "Enabled"⟩])).1 = []
    ∧ changedFlag (ApApiMgrPolicy.run_module ⟨"cie", .absent, "1.0.0"⟩ false "998"
        (ApApiMgrPolicy.policyRun
          (ApApiMgrPolicy.run_module ⟨"cie", .absent, "1.0.0"⟩ false "999"
            [⟨"cie", "123", "1.0.0", "Enabled"⟩]).1
          [⟨"cie", "123", "1.0.0", "Enabled"⟩])).2 ≠ some true :=
  c1_idempotence_amended.2 ⟨"cie", .absent, "1.0.0"⟩ "999" "998"
    [⟨"cie", "123", "1.0.0", "Enabled"⟩] (by decide) (by decide)

/-- Claim C2, counterexample: ap_mq_destination with target present and an
existing destination of the declared name silently does nothing even though
the declared encrypted attribute differs from the observed one; no update
mutation exists in this module at all, and the run reports changed-false. -/
theorem c2_field_drift_counterexample :
    (⟨"orders", .present,
       ⟨ApMqDestination.MqType.queue, true, 604800000, 120000, none, 10, []⟩⟩ :
        ApMqDestination.MqParams).attributes.encrypted = true
    ∧ (⟨ApMqDestination.MqType.queue, "orders", false, 604800000⟩ :
        ApMqDestination.MqDest).encrypted = false
    ∧ ApMqDestination.run_module
        ⟨"orders", .present, ⟨ApMqDestination.MqType.queue, true, 604800000, 120000, none, 10, []⟩⟩
        false [⟨ApMqDestination.MqType.queue, "orders", false, 604800000⟩]
      = ([], Outcome.exit false (some "orders")) := by
  decide

/-- Claim C2, amended: field drift triggers an update in the CloudHub
application module (target present, existing application, any compared field
differing yields exactly one modify call and changed-true), while
ap_mq_destination treats mere existence as up to date: with target present
and a found destination it performs no call and reports changed-false,
whatever the declared attributes. -/
theorem c2_field_drift_amended :
    (∀ (p : ApCloudhubApp.ChParams) (app : ApCloudhubApp.ChApp) (f0 r0 : String),
      p.state = ApCloudhubApp.ChState.present →
      p.file = some f0 →
      p.runtime = some r0 →
      ApCloudhubApp.application_needs_update p app = true →
      ApCloudhubApp.run_module p false (some app)
        = ([ApCloudhubApp.ChCall.modify p.name], Outcome.exit true true))
    ∧ (∀ (p : ApMqDestination.MqParams) (store : ApMqDestination.MqStore)
          (d : ApMqDestination.MqDest),
        p.state = ApMqDestination.MqState.present →
        ApMqDestination.findDestination p store = some d →
        ApMqDestination.run_module p false store
          = ([], Outcome.exit false (some d.destId))) := by
  constructor
  · intro p app f0 r0 hp hf hr hnu
    simp [ApCloudhubApp.run_module, ApCloudhubApp.get_context, hp, hf, hr, hnu]
  · intro p store d hp hf
    simp [ApMqDestination.run_module, ApMqDestination.get_context, hp, hf]

/-- Claim C2, witness for the amended theorem at concrete inputs: an
application whose region drifted is modified with changed-true, and an
existing queue with drifted attributes is left untouched with
changed-false. -/
theorem c2_field_drift_amended_witness :
    ApCloudhubApp.run_module
      ⟨"app1", .present, some "a.jar", some "4.4.0", 1, "0.1", "us-east-2",
       false, false, false, false⟩ false
      (some ⟨"app1.cloudhub.io", "STARTED", "us-east-1", "4.4.0",
             false, false, false, false, 1, "0.1"⟩)
      = ([ApCloudhubApp.ChCall.modify "app1"], Outcome.exit true true)
    ∧ ApMqDestination.run_module
        ⟨"orders", .present, ⟨ApMqDestination.MqType.queue, true, 604800000, 120000, none, 10, []⟩⟩
        false [⟨ApMqDestination.MqType.queue, "orders", false, 604800000⟩]
      = ([], Outcome.exit false (some "orders")) :=
  ⟨c2_field_drift_amended.1
      ⟨"app1", .present, some "a.jar", some "4.4.0", 1, "0.1", "us-east-2",
       false, false, false, false⟩
      ⟨"app1.cloudhub.io", "STARTED", "us-east-1", "4.4.0",
       false, false, false, false, 1, "0.1"⟩
      "a.jar" "4.4.0" rfl rfl rfl (by decide),
   c2_field_drift_amended.2
      ⟨"orders", .present, ⟨ApMqDestination.MqType.queue, true, 604800000, 120000, none, 10, []⟩⟩
      [⟨ApMqDestination.MqType.queue, "orders", false, 604800000⟩]
      ⟨ApMqDestination.MqType.queue, "orders", false, 604800000⟩ rfl (by decide)⟩

/-- Claim C3, counterexample: the tag comparison of analyze_asset is plain
ordered list equality, so declared tags a,b against observed labels b,a (the
same members reordered) DO report a difference, in both the module-local and
the shared implementation, contradicting the claimed order-independence. -/
theorem c3_set_diff_counterexample :
    (ApExchangeAsset.analyze_asset
      ⟨"n", .present, "custom", "g", "a", "1.0.0", ["a", "b"], none, none⟩
      ⟨"a", "g", "1.0.0", "custom", "published", "n", ["b", "a"], none, []⟩).must_update
      = true
    ∧ (ApExchangeCommon.analyze_asset none none none ["a", "b"]
        ⟨"a", "g", "1.0.0", "custom", "published", "n", ["b", "a"], none, []⟩).must_update_tags
      = true := by
  decide

/-- Claim C3, amended: the tag-list comparison is order-sensitive exact list
equality: reordered lists with equal members report a difference, lists of
different cardinality report a difference, and only an identically ordered
equal list reports none, in both the module-local and the shared
analyze_asset. -/
theorem c3_set_diff_amended :
    (ApExchangeAsset.analyze_asset
      ⟨"n", .present, "custom", "g", "a", "1.0.0", ["a", "b"], none, none⟩
      ⟨"a", "g", "1.0.0", "custom", "published", "n", ["b", "a"], none, []⟩).must_update
      = true
    ∧ (ApExchangeAsset.analyze_asset
        ⟨"n", .present, "custom", "g", "a", "1.0.0", ["a", "b"], none, none⟩
        ⟨"a", "g", "1.0.0", "custom", "published", "n", ["a"], none, []⟩).must_update
      = true
    ∧ (ApExchangeAsset.analyze_asset
        ⟨"n", .present, "custom", "g", "a", "1.0.0", ["a", "b"], none, none⟩
        ⟨"a", "g", "1.0.0", "custom", "published", "n", ["a", "b"], none, []⟩).must_update
      = false
    ∧ (ApExchangeCommon.analyze_asset none none none ["a", "b"]
        ⟨"a", "g", "1.0.0", "custom", "published", "n", ["b", "a"], none, []⟩).must_update_tags
      = true
    ∧ (ApExchangeCommon.analyze_asset none none none ["a", "b"]
        ⟨"a", "g", "1.0.0", "custom", "published", "n", ["a"], none, []⟩).must_update_tags
      = true
    ∧ (ApExchangeCommon.analyze_asset none none none ["a", "b"]
        ⟨"a", "g", "1.0.0", "custom", "published", "n", ["a", "b"], none, []⟩).must_update_tags
      = false := by
  decide

/-- Claim C4: when a policy with the declared name is applied at an asset
version different from the declared one, reconciling with target present
removes the existing policy first and then applies a new one, exactly two
mutator calls in that order, and never issues an edit of the existing
policy. -/
theorem c4_replace_over_update (p : ApApiMgrPolicy.PolicyParams) (fid : String)
    (store : ApApiMgrPolicy.PolicyStore) (it : ApApiMgrPolicy.PolicyItem)
    (hp : p.state = ApApiMgrPolicy.PolState.present)
    (hm : ApApiMgrPolicy.lastMatch p.name store = some it)
    (hv : it.assetVersion ≠ p.policy_version) :
    ApApiMgrPolicy.run_module p false fid store
      = ([ApApiMgrPolicy.PolicyCall.remove it.pid,
          ApApiMgrPolicy.PolicyCall.applyNew p.name p.policy_version fid],
         Outcome.exit true (some fid))
    ∧ ∀ q, ApApiMgrPolicy.PolicyCall.edit q
        ∉ (ApApiMgrPolicy.run_module p false fid store).1 := by
  have hdo : ApApiMgrPolicy.do_no_action p store
      = Except.ok (ApApiMgrPolicy.ctxOf (some it)) := by
    simp only [ApApiMgrPolicy.do_no_action, hp]
    rw [ApApiMgrPolicy.scanApplied_eq, hm]
  have happly : ApApiMgrPolicy.apply_edit_policy_on_api p
      { do_nothing := false, policy_id := some it.pid,
        policy_asset_version := some it.assetVersion,
        policy_enabled := it.status == "Enabled" } fid
      = ([ApApiMgrPolicy.PolicyCall.remove it.pid,
          ApApiMgrPolicy.PolicyCall.applyNew p.name p.policy_version fid],
         some fid) := by
    simp [ApApiMgrPolicy.apply_edit_policy_on_api, hv]
  have hrun : ApApiMgrPolicy.run_module p false fid store
      = ([ApApiMgrPolicy.PolicyCall.remove it.pid,
          ApApiMgrPolicy.PolicyCall.applyNew p.name p.policy_version fid],
         Outcome.exit true (some fid)) := by
    simp [ApApiMgrPolicy.run_module, hdo, hp, happly, ApApiMgrPolicy.ctxOf]
  refine ⟨hrun, ?_⟩
  rw [hrun]
  intro q
  simp

/-- Claim C4, witness: a policy applied at version 1.0.0 with declared
version 2.0.0 is removed and re-applied in that order, with no edit. -/
theorem c4_replace_over_update_witness :
    ApApiMgrPolicy.run_module ⟨"cie", .present, "2.0.0"⟩ false "555"
      [⟨"cie", "123", "1.0.0", "Enabled"⟩]
      = ([ApApiMgrPolicy.PolicyCall.remove "123",
          ApApiMgrPolicy.PolicyCall.applyNew "cie" "2.0.0" "555"],
         Outcome.exit true (some "555"))
    ∧ ∀ q, ApApiMgrPolicy.PolicyCall.edit q
        ∉ (ApApiMgrPolicy.run_module ⟨"cie", .present, "2.0.0"⟩ false "555"
            [⟨"cie", "123", "1.0.0", "Enabled"⟩]).1 :=
  c4_replace_over_update ⟨"cie", .present, "2.0.0"⟩ "555"
    [⟨"cie", "123", "1.0.0", "Enabled"⟩] ⟨"cie", "123", "1.0.0", "Enabled"⟩
    rfl (by decide) (by decide)

/-- Claim C5: reconciling with target absent when the resource is not found
remotely is a no-op in every embedded module: the run exits changed-false,
issues zero mutating calls and raises no error, for ap_mq_destination,
ap_api_mgr_policy, the CloudHub application module and ap_exchange_asset. -/
theorem c5_absent_noop :
    (∀ (p : ApMqDestination.MqParams) (store : ApMqDestination.MqStore),
      p.state = ApMqDestination.MqState.absent →
      ApMqDestination.findDestination p store = none →
      ApMqDestination.run_module p false store = ([], Outcome.exit false none))
    ∧ (∀ (p : ApApiMgrPolicy.PolicyParams) (fid : String)
          (store : ApApiMgrPolicy.PolicyStore),
        p.state = ApApiMgrPolicy.PolState.absent →
        ApApiMgrPolicy.lastMatch p.name store = none →
        ApApiMgrPolicy.run_module p false fid store = ([], Outcome.exit false none))
    ∧ (∀ (p : ApCloudhubApp.ChParams),
        p.state = ApCloudhubApp.ChState.absent →
        ApCloudhubApp.run_module p false none = ([], Outcome.exit false false))
    ∧ (∀ (p : ApExchangeAsset.ExParams) (store : Option ApExchangeAsset.ExAsset),
        p.state = ApExchangeAsset.ExState.absent →
        ApExchangeAsset.look_asset_on_exchange p store = none →
        ApExchangeAsset.run_module p false store = ([], Outcome.exit false ())) := by
  refine ⟨?_, ?_, ?_, ?_⟩
  · intro p store hp hf
    simp [ApMqDestination.run_module, ApMqDestination.get_context, hp, hf]
  · intro p fid store hp hm
    have hdo : ApApiMgrPolicy.do_no_action p store
        = Except.ok { ApApiMgrPolicy.initContext with do_nothing := true } := by
      simp [ApApiMgrPolicy.do_no_action, hp, ApApiMgrPolicy.scanApplied_eq, hm,
            ApApiMgrPolicy.ctxOf, ApApiMgrPolicy.initContext]
    simp [ApApiMgrPolicy.run_module, hdo, ApApiMgrPolicy.initContext]
  · intro p hp
    simp [ApCloudhubApp.run_module, ApCloudhubApp.get_context, hp]
  · intro p store hp hlook
    simp [ApExchangeAsset.run_module, ApExchangeAsset.get_context, hp, hlook]

/-- Claim C5, witness: concrete absent-target runs against empty remote
state exit changed-false with no calls in all four embedded modules. -/
theorem c5_absent_noop_witness :
    ApMqDestination.run_module
      ⟨"orders", .absent, ⟨ApMqDestination.MqType.queue, false, 604800000, 120000,
        none, 10, []⟩⟩ false []
      = ([], Outcome.exit false none)
    ∧ ApApiMgrPolicy.run_module ⟨"cie", .absent, "1.0.0"⟩ false "9" []
      = ([], Outcome.exit false none)
    ∧ ApCloudhubApp.run_module
        ⟨"app1", .absent, none, none, 1, "0.1", "us-east-1",
         false, false, false, false⟩ false none
      = ([], Outcome.exit false false)
    ∧ ApExchangeAsset.run_module
        ⟨"n", .absent, "custom", "g", "a", "1.0.0", [], none, none⟩ false none
      = ([], Outcome.exit false ()) :=
  ⟨c5_absent_noop.1 _ [] rfl (by decide),
   c5_absent_noop.2.1 ⟨"cie", .absent, "1.0.0"⟩ "9" [] rfl (by decide),
   c5_absent_noop.2.2.1 _ rfl,
   c5_absent_noop.2.2.2 _ none rfl (by decide)⟩

/-- Claim C6, counterexample: a non-absent lifecycle target against a
missing resource does not always create it: ap_api_mgr_policy with target
enabled and no applied policy fails, and the CloudHub application module
with target started and no application fails, instead of creating. -/
theorem c6_create_on_absent_counterexample :
    ApApiMgrPolicy.run_module ⟨"cie", .enabled, "1.0.0"⟩ false "9" []
      = ([], Outcome.fail "enabled state requires an existing policy applied")
    ∧ ApCloudhubApp.run_module
        ⟨"app1", .started, none, none, 1, "0.1", "us-east-1",
         false, false, false, false⟩ false none
      = ([], Outcome.fail "Error: \"started\" state requires a present object") := by
  decide

/-- Claim C6, amended: when the resource is not found remotely, target
present creates it in every embedded module (policy apply, MQ destination
create, CloudHub deploy, Exchange upload), and Exchange target deprecated
uploads and then deprecates; but the sub-state targets enabled and disabled
of ap_api_mgr_policy and started and undeployed of the CloudHub application
module fail instead of creating. -/
theorem c6_create_on_absent_amended :
    (∀ (p : ApApiMgrPolicy.PolicyParams) (fid : String)
        (store : ApApiMgrPolicy.PolicyStore),
      p.state = ApApiMgrPolicy.PolState.present →
      ApApiMgrPolicy.lastMatch p.name store = none →
      ApApiMgrPolicy.run_module p false fid store
        = ([ApApiMgrPolicy.PolicyCall.applyNew p.name p.policy_version fid],
           Outcome.exit true (some fid)))
    ∧ (∀ (p : ApMqDestination.MqParams) (store : ApMqDestination.MqStore),
        p.state = ApMqDestination.MqState.present →
        ApMqDestination.findDestination p store = none →
        ApMqDestination.run_module p false store
          = (ApMqDestination.create_mq_destination p,
             Outcome.exit true (some p.name)))
    ∧ (∀ (p : ApCloudhubApp.ChParams) (f0 r0 : String),
        p.state = ApCloudhubApp.ChState.present →
        p.file = some f0 →
        p.runtime = some r0 →
        ApCloudhubApp.run_module p false none
          = ([ApCloudhubApp.ChCall.deploy p.name], Outcome.exit true true))
    ∧ (∀ (p : ApExchangeAsset.ExParams) (store : Option ApExchangeAsset.ExAsset),
        p.state = ApExchangeAsset.ExState.present →
        ApExchangeAsset.look_asset_on_exchange p store = none →
        ApExchangeAsset.run_module p false store
          = (ApExchangeAsset.upload_exchange_asset p, Outcome.exit true ()))
    ∧ (∀ (p : ApExchangeAsset.ExParams) (store : Option ApExchangeAsset.ExAsset),
        p.state = ApExchangeAsset.ExState.deprecated →
        ApExchangeAsset.look_asset_on_exchange p store = none →
        ApExchangeAsset.run_module p false store
          = (ApExchangeAsset.upload_exchange_asset p ++ [ApExchangeAsset.ExCall.deprecate],
             Outcome.exit true ()))
    ∧ (∀ (p : ApApiMgrPolicy.PolicyParams) (fid : String)
          (store : ApApiMgrPolicy.PolicyStore),
        p.state = ApApiMgrPolicy.PolState.enabled →
        ApApiMgrPolicy.lastMatch p.name store = none →
        ApApiMgrPolicy.run_module p false fid store
          = ([], Outcome.fail "enabled state requires an existing policy applied"))
    ∧ (∀ (p : ApApiMgrPolicy.PolicyParams) (fid : String)
          (store : ApApiMgrPolicy.PolicyStore),
        p.state = ApApiMgrPolicy.PolState.disabled →
        ApApiMgrPolicy.lastMatch p.name store = none →
        ApApiMgrPolicy.run_module p false fid store
          = ([], Outcome.fail "disabled state requires an existing policy applied"))
    ∧ (∀ (p : ApCloudhubApp.ChParams),
        p.state = ApCloudhubApp.ChState.started →
        ApCloudhubApp.run_module p false none
          = ([], Outcome.fail "Error: \"started\" state requires a present object"))
    ∧ (∀ (p : ApCloudhubApp.ChParams),
        p.state = ApCloudhubApp.ChState.undeployed →
        ApCloudhubApp.run_module p false none
          = ([], Outcome.fail "Error: \"undeployed\" state requires a present object")) := by
  refine ⟨?_, ?_, ?_, ?_, ?_, ?_, ?_, ?_, ?_⟩
  · intro p fid store hp hm
    have hdo : ApApiMgrPolicy.do_no_action p store
        = Except.ok ApApiMgrPolicy.initContext := by
      simp [ApApiMgrPolicy.do_no_action, hp, ApApiMgrPolicy.scanApplied_eq, hm,
            ApApiMgrPolicy.ctxOf]
    simp [ApApiMgrPolicy.run_module, hdo, hp, ApApiMgrPolicy.initContext,
          ApApiMgrPolicy.apply_edit_policy_on_api]
  · intro p store hp hf
    simp [ApMqDestination.run_module, ApMqDestination.get_context, hp, hf]
  · intro p f0 r0 hp hf hr
    simp [ApCloudhubApp.run_module, ApCloudhubApp.get_context, hp, hf, hr]
  · intro p store hp hlook
    simp [ApExchangeAsset.run_module, ApExchangeAsset.get_context, hp, hlook]
  · intro p store hp hlook
    simp [ApExchangeAsset.run_module, ApExchangeAsset.get_context, hp, hlook,
          ApExchangeAsset.upload_exchange_asset]
  · intro p fid store hp hm
    have hdo : ApApiMgrPolicy.do_no_action p store
        = Except.error "enabled state requires an existing policy applied" := by
      simp [ApApiMgrPolicy.do_no_action, hp, ApApiMgrPolicy.scanApplied_eq, hm,
            ApApiMgrPolicy.ctxOf, ApApiMgrPolicy.initContext]
    simp [ApApiMgrPolicy.run_module, hdo]
  · intro p fid store hp hm
    have hdo : ApApiMgrPolicy.do_no_action p store
        = Except.error "disabled state requires an existing policy applied" := by
      simp [ApApiMgrPolicy.do_no_action, hp, ApApiMgrPolicy.scanApplied_eq, hm,
            ApApiMgrPolicy.ctxOf, ApApiMgrPolicy.initContext]
    simp [ApApiMgrPolicy.run_module, hdo]
  · intro p hp
    simp [ApCloudhubApp.run_module, ApCloudhubApp.get_context, hp]
  · intro p hp
    simp [ApCloudhubApp.run_module, ApCloudhubApp.get_context, hp]

/-- Claim C6, witness: concrete instantiations of every conjunct of the
amended create-on-absent behavior. -/
theorem c6_create_on_absent_amended_witness :
    ApApiMgrPolicy.run_module ⟨"cie", .present, "1.0.0"⟩ false "7" []
      = ([ApApiMgrPolicy.PolicyCall.applyNew "cie" "1.0.0" "7"],
         Outcome.exit true (some "7"))
    ∧ ApMqDestination.run_module
        ⟨"orders", .present, ⟨ApMqDestination.MqType.queue, false, 604800000,
          120000, none, 10, []⟩⟩ false []
      = (ApMqDestination.create_mq_destination
          ⟨"orders", .present, ⟨ApMqDestination.MqType.queue, false, 604800000,
            120000, none, 10, []⟩⟩,
         Outcome.exit true (some "orders"))
    ∧ ApCloudhubApp.run_module
        ⟨"app1", .present, some "a.jar", some "4.4.0", 1, "0.1", "us-east-1",
         false, false, false, false⟩ false none
      = ([ApCloudhubApp.ChCall.deploy "app1"], Outcome.exit true true)
    ∧ ApExchangeAsset.run_module
        ⟨"n", .present, "custom", "g", "a", "1.0.0", [], none, none⟩ false none
      = (ApExchangeAsset.upload_exchange_asset
          ⟨"n", .present, "custom", "g", "a", "1.0.0", [], none, none⟩,
         Outcome.exit true ())
    ∧ ApExchangeAsset.run_module
        ⟨"n", .deprecated, "custom", "g", "a", "1.0.0", [], none, none⟩ false none
      = (ApExchangeAsset.upload_exchange_asset
          ⟨"n", .deprecated, "custom", "g", "a", "1.0.0", [], none, none⟩
          ++ [ApExchangeAsset.ExCall.deprecate],
         Outcome.exit true ())
    ∧ ApApiMgrPolicy.run_module ⟨"cie", .enabled, "1.0.0"⟩ false "7" []
      = ([], Outcome.fail "enabled state requires an existing policy applied")
    ∧ ApApiMgrPolicy.run_module ⟨"cie", .disabled, "1.0.0"⟩ false "7" []
      = ([], Outcome.fail "disabled state requires an existing policy applied")
    ∧ ApCloudhubApp.run_module
        ⟨"app1", .started, none, none, 1, "0.1", "us-east-1",
         false, false, false, false⟩ false none
      = ([], Outcome.fail "Error: \"started\" state requires a present object")
    ∧ ApCloudhubApp.run_module
        ⟨"app1", .undeployed, none, none, 1, "0.1", "us-east-1",
         false, false, false, false⟩ false none
      = ([], Outcome.fail "Error: \"undeployed\" state requires a present object") :=
  ⟨c6_create_on_absent_amended.1 ⟨"cie", .present, "1.0.0"⟩ "7" [] rfl (by decide),
   c6_create_on_absent_amended.2.1 _ [] rfl (by decide),
   c6_create_on_absent_amended.2.2.1 _ "a.jar" "4.4.0" rfl rfl rfl,
   c6_create_on_absent_amended.2.2.2.1 _ none rfl (by decide),
   c6_create_on_absent_amended.2.2.2.2.1 _ none rfl (by decide),
   c6_create_on_absent_amended.2.2.2.2.2.1 ⟨"cie", .enabled, "1.0.0"⟩ "7" []
     rfl (by decide),
   c6_create_on_absent_amended.2.2.2.2.2.2.1 ⟨"cie", .disabled, "1.0.0"⟩ "7" []
     rfl (by decide),
   c6_create_on_absent_amended.2.2.2.2.2.2.2.1 _ rfl,
   c6_create_on_absent_amended.2.2.2.2.2.2.2.2 _ rfl⟩

/-- Claim C7, counterexample: with target present, an existing asset that is
both deprecated and drifted is undeprecated FIRST and only then updated: the
emitted call order is transition before update, not update before
transition, so the trace starts with the undeprecate transition. -/
theorem c7_update_before_transition_counterexample :
    ApExchangeAsset.run_module
      ⟨"n", .present, "custom", "g", "a", "1.0.0", ["x"], some "d", none⟩ false
      (some ⟨"a", "g", "1.0.0", "custom", "deprecated", "n", [], some "d", []⟩)
      = ([ApExchangeAsset.ExCall.undeprecate,
          ApExchangeAsset.ExCall.setTags ["x"],
          ApExchangeAsset.ExCall.setDescription (some "d"),
          ApExchangeAsset.ExCall.setIcon none],
         Outcome.exit true ())
    ∧ (ApExchangeAsset.run_module
        ⟨"n", .present, "custom", "g", "a", "1.0.0", ["x"], some "d", none⟩ false
        (some ⟨"a", "g", "1.0.0", "custom", "deprecated", "n", [], some "d", []⟩)).1.head?
      = some ApExchangeAsset.ExCall.undeprecate := by
  decide

/-- Claim C7, amended: when both a field diff and a sub-state mismatch are
present, the transition is never silently skipped, but the order depends on
the target: for target present the undeprecate transition is emitted before
the update calls; for target deprecated the update calls are emitted before
the deprecate transition. -/
theorem c7_update_before_transition_amended :
    (∀ (p : ApExchangeAsset.ExParams) (asset : ApExchangeAsset.ExAsset),
      p.state = ApExchangeAsset.ExState.present →
      (ApExchangeAsset.look_asset_on_exchange p (some asset)).isSome = true →
      (ApExchangeAsset.analyze_asset p asset).deprecated = true →
      (ApExchangeAsset.analyze_asset p asset).must_update = true →
      ApExchangeAsset.run_module p false (some asset)
        = (ApExchangeAsset.ExCall.undeprecate :: ApExchangeAsset.modify_exchange_asset p,
           Outcome.exit true ()))
    ∧ (∀ (p : ApExchangeAsset.ExParams) (asset : ApExchangeAsset.ExAsset),
        p.state = ApExchangeAsset.ExState.deprecated →
        (ApExchangeAsset.look_asset_on_exchange p (some asset)).isSome = true →
        (ApExchangeAsset.analyze_asset p asset).deprecated = false →
        (ApExchangeAsset.analyze_asset p asset).must_update = true →
        ApExchangeAsset.run_module p false (some asset)
          = (ApExchangeAsset.modify_exchange_asset p ++ [ApExchangeAsset.ExCall.deprecate],
             Outcome.exit true ())) := by
  constructor
  · intro p asset hp hlook hdep hmu
    simp [ApExchangeAsset.run_module, ApExchangeAsset.get_context, hp, hlook,
          hdep, hmu]
  · intro p asset hp hlook hdep hmu
    simp [ApExchangeAsset.run_module, ApExchangeAsset.get_context, hp, hlook,
          hdep, hmu]

/-- Claim C7, witness: concrete deprecated-and-drifted asset runs for both
targets, showing the two orders. -/
theorem c7_update_before_transition_amended_witness :
    ApExchangeAsset.run_module
      ⟨"n", .present, "custom", "g", "a", "1.0.0", ["x"], some "d", none⟩ false
      (some ⟨"a", "g", "1.0.0", "custom", "deprecated", "n", [], some "d", []⟩)
      = (ApExchangeAsset.ExCall.undeprecate :: ApExchangeAsset.modify_exchange_asset
          ⟨"n", .present, "custom", "g", "a", "1.0.0", ["x"], some "d", none⟩,
         Outcome.exit true ())
    ∧ ApExchangeAsset.run_module
        ⟨"n", .deprecated, "custom", "g", "a", "1.0.0", ["x"], some "d", none⟩ false
        (some ⟨"a", "g", "1.0.0", "custom", "published", "n", [], some "d", []⟩)
      = (ApExchangeAsset.modify_exchange_asset
          ⟨"n", .deprecated, "custom", "g", "a", "1.0.0", ["x"], some "d", none⟩
          ++ [ApExchangeAsset.ExCall.deprecate],
         Outcome.exit true ()) :=
  ⟨c7_update_before_transition_amended.1 _ _ rfl (by decide) (by decide) (by decide),
   c7_update_before_transition_amended.2 _ _ rfl (by decide) (by decide) (by decide)⟩

/-- Claim C8: evaluation of the icon comparison at the failing input.  The
shared ap_exchange_common analyze_asset flags the icon for update exactly
when the declared and observed md5 digests are EQUAL (and not when they
differ), inverted relative to the claim; the module-local analyze_asset of
ap_exchange_asset reports no update for equal digests, as the claim states.
The one-present-one-absent cases of the shared version do report a
difference, as the claim states. -/
theorem c8_icon_presence_code_bug_eval :
    (ApExchangeCommon.analyze_asset (some "n") (some "d") (some "ABC") ["t"]
      ⟨"a", "g", "1.0.0", "custom", "published", "n", ["t"], some "d",
       [⟨"icon", "ABC"⟩]⟩).must_update_icon = true
    ∧ (ApExchangeCommon.analyze_asset (some "n") (some "d") (some "DEF") ["t"]
        ⟨"a", "g", "1.0.0", "custom", "published", "n", ["t"], some "d",
         [⟨"icon", "ABC"⟩]⟩).must_update_icon = false
    ∧ (ApExchangeCommon.analyze_asset (some "n") (some "d") none ["t"]
        ⟨"a", "g", "1.0.0", "custom", "published", "n", ["t"], some "d",
         [⟨"icon", "ABC"⟩]⟩).must_update_icon = true
    ∧ (ApExchangeCommon.analyze_asset (some "n") (some "d") (some "ABC") ["t"]
        ⟨"a", "g", "1.0.0", "custom", "published", "n", ["t"], some "d",
         []⟩).must_update_icon = true
    ∧ (ApExchangeAsset.analyze_asset
        ⟨"n", .present, "custom", "g", "a", "1.0.0", ["t"], some "d", some "ABC"⟩
        ⟨"a", "g", "1.0.0", "custom", "published", "n", ["t"], some "d",
         [⟨"icon", "ABC"⟩]⟩).must_update = false := by
  decide

/-- Claim C9: evaluation of the transport-error handling at the failing
input.  The execute_http_call of mulesoft/ap_exchange_application answers a
raised HTTP call with a successful exit_json termination carrying the error
text, and the do_no_action of mulesoft/ap_account_business_group answers a
non-zero CLI exit the same way, so those failures are swallowed; the shared
ap_common wrappers terminate the module as failed, as the claim states. -/
theorem c9_transport_error_code_bug_eval :
    Transport.ap_exchange_application_execute_http_call true
      (.failure "HTTP Error 500: Internal Server Error")
      = Transport.CallExit.moduleExitedOk "HTTP Error 500: Internal Server Error"
    ∧ Transport.ap_account_business_group_cli_errpath 1 "Error: unauthorized"
      = Transport.CallExit.moduleExitedOk "Error: unauthorized"
    ∧ Transport.ap_common_execute_http_call "[analyze_asset]" true "GET" "https://h/x"
        (.failure "HTTP Error 500: Internal Server Error")
      = Transport.CallExit.moduleFailed
          "[analyze_asset] Error executing HTTP call GET to https://h/x [HTTP Error 500: Internal Server Error]"
    ∧ Transport.ap_common_execute_anypoint_cli "[caller]" 1 "boom"
      = Transport.CallExit.moduleFailed "[caller] boom" := by
  decide

/-- Claim C10: in check mode every embedded module that the claim cites
(ap_mq_destination, the CloudHub application module, ap_api_mgr_policy)
issues zero mutating calls and never reports changed: the mutation trace is
empty and the outcome is either a parameter-validation or read failure or a
changed-false exit. -/
theorem c10_check_mode_no_mutation :
    (∀ (p : ApMqDestination.MqParams) (store : ApMqDestination.MqStore),
      (ApMqDestination.run_module p true store).1 = []
      ∧ changedFlag (ApMqDestination.run_module p true store).2 ≠ some true)
    ∧ (∀ (p : ApCloudhubApp.ChParams) (app? : Option ApCloudhubApp.ChApp),
        (ApCloudhubApp.run_module p true app?).1 = []
        ∧ changedFlag (ApCloudhubApp.run_module p true app?).2 ≠ some true)
    ∧ (∀ (p : ApApiMgrPolicy.PolicyParams) (fid : String)
          (store : ApApiMgrPolicy.PolicyStore),
        (ApApiMgrPolicy.run_module p true fid store).1 = []
        ∧ changedFlag (ApApiMgrPolicy.run_module p true fid store).2 ≠ some true) := by
  refine ⟨?_, ?_, ?_⟩
  · intro p store
    exact ⟨rfl, by simp [ApMqDestination.run_module, changedFlag]⟩
  · intro p app?
    by_cases h1 : (p.state == ApCloudhubApp.ChState.present && p.file.isNone) = true
    · constructor <;> simp [ApCloudhubApp.run_module, h1, changedFlag]
    · by_cases h2 : (p.state == ApCloudhubApp.ChState.present && p.runtime.isNone) = true
      · constructor <;> simp [ApCloudhubApp.run_module, h1, h2, changedFlag]
      · constructor <;> simp [ApCloudhubApp.run_module, h1, h2, changedFlag]
  · intro p fid store
    cases hdo : ApApiMgrPolicy.do_no_action p store with
    | error m =>
        constructor <;> simp [ApApiMgrPolicy.run_module, hdo, changedFlag]
    | ok ctx =>
        by_cases hd : ctx.do_nothing = true
        · constructor <;> simp [ApApiMgrPolicy.run_module, hdo, hd, changedFlag]
        · constructor <;> simp [ApApiMgrPolicy.run_module, hdo, hd, changedFlag]

end MulesoftAnsible
